import Mathlib

/-!
Shallow embedding of the EPC reconciliation core of the RFID-Asset-Inventory
repository, translated from `src/screens/InventoryScanScreen.tsx` (the scan
handler, the bucket filters and the delete handler) and the data shapes of
the shared type declarations (`InventoryItem`, `AssetInfo`,
`ScannedInventoryEPC`).

The registry lookup (`checkEpcInInventory` from `services/api`) is not part
of the sources; every definition below therefore takes the registry as an
explicit function parameter `registry : String → LookupResult` (or, for the
failure analysis, `String → Except Unit LookupResult`) and all theorems
quantify over it.
-/

namespace RFIDInventory

/-- The status field of `ScannedInventoryEPC` — the result statuses the
registry lookup can report (`'valid' | 'surplus' | 'error_not_found'`). -/
inductive LookupStatus where
  | valid
  | surplus
  | error_not_found
deriving DecidableEq

/-- `UIStatus` from `InventoryScanScreen.tsx` line 17. -/
inductive UIStatus where
  | valid
  | invalid_duplicate
  | invalid_wrong_asset
  | invalid_surplus
  | invalid_not_found
deriving DecidableEq

/-- `AssetInfo` from the shared type declarations. -/
structure AssetInfo where
  assetId : String
  assetType : String
  assetName : String
deriving DecidableEq

/-- The part of `ScannedInventoryEPC` returned by `checkEpcInInventory`:
a status plus an optional `AssetInfo` (the `assetInfo?` field). -/
structure LookupResult where
  status : LookupStatus
  assetInfo : Option AssetInfo
deriving DecidableEq

/-- `ScannedEpcUI` from `InventoryScanScreen.tsx` lines 18-20:
a `ScannedInventoryEPC` extended with the classification `uiStatus`. -/
structure ScannedEpcUI where
  epc : String
  status : LookupStatus
  assetInfo : Option AssetInfo
  uiStatus : UIStatus
deriving DecidableEq

/-- `InventoryItem` from the shared type declarations. -/
structure InventoryItem where
  assetId : String
  assetType : String
  assetName : String
  quantityRequired : Nat
  quantityScanned : Nat
  expectedEpcs : List String
deriving DecidableEq

/-- The classification chain of `handleScanResults`
(`InventoryScanScreen.tsx` lines 138-146).  `result.assetInfo?.assetId`
is an optional projection, so the wrong-asset comparison is on
`Option String`: a missing `assetInfo` also differs from the current id. -/
def classify (result : LookupResult) (assetId : String) : UIStatus :=
  if result.status = LookupStatus.error_not_found then UIStatus.invalid_not_found
  else if result.status = LookupStatus.surplus then UIStatus.invalid_surplus
  else if result.assetInfo.map AssetInfo.assetId ≠ some assetId then UIStatus.invalid_wrong_asset
  else UIStatus.valid

/-- The record pushed for one processed EPC: `{ epc, ...result, uiStatus }`
(`InventoryScanScreen.tsx` line 147). -/
def mkScan (registry : String → LookupResult) (assetId epc : String) : ScannedEpcUI :=
  { epc := epc
    status := (registry epc).status
    assetInfo := (registry epc).assetInfo
    uiStatus := classify (registry epc) assetId }

/-- The scan loop of `handleScanResults` (`InventoryScanScreen.tsx` lines
129-149): EPCs already present (in the session or earlier in this batch)
are skipped; fresh EPCs are looked up, classified and collected.  The
growing `currentEpcs` set is represented by extending the session list,
whose `epc` projections are exactly the set's contents.  Returns `newScans`. -/
def processEpcs (registry : String → LookupResult) (assetId : String) :
    List String → List ScannedEpcUI → List ScannedEpcUI
  | [], _ => []
  | epc :: rest, session =>
    if epc ∈ session.map ScannedEpcUI.epc then
      processEpcs registry assetId rest session
    else
      mkScan registry assetId epc ::
        processEpcs registry assetId rest (session ++ [mkScan registry assetId epc])

/-- The three EPCs injected into every batch
(`InventoryScanScreen.tsx` lines 122-124). -/
def mockInjected : List String := ["EPC-E5-001", "EPC-A1-001", "UNKNOWN-EPC-123"]

/-- First-occurrence deduplication, the semantics of
`[...new Set(mockNewEpcs)]` (`InventoryScanScreen.tsx` line 126). -/
def jsSetDedupAux (seen : List String) : List String → List String
  | [] => []
  | x :: xs =>
    if x ∈ seen then jsSetDedupAux seen xs
    else x :: jsSetDedupAux (seen ++ [x]) xs

/-- `[...new Set(l)]` keeps the first occurrence of each element, in order. -/
def jsSetDedup (l : List String) : List String := jsSetDedupAux [] l

/-- `uniqueEpcs` (`InventoryScanScreen.tsx` lines 119-126): the scanned
batch, the first two expected EPCs of the current asset and the three
injected mock EPCs, deduplicated. -/
def uniqueEpcs (item : InventoryItem) (epcs : List String) : List String :=
  jsSetDedup (epcs ++ item.expectedEpcs.take 2 ++ mockInjected)

/-- `handleScanResults` (`InventoryScanScreen.tsx` lines 111-153) as a state
transformer: given the current `scannedEPCs` list it returns
`(newScans, updated scannedEPCs)`.  An empty input batch returns early.
The guard `newScans.length > 0` around `setScannedEPCs` is dropped because
appending the empty list is the identity. -/
def handleScanResults (registry : String → LookupResult) (item : InventoryItem)
    (epcs : List String) (scannedEPCs : List ScannedEpcUI) :
    List ScannedEpcUI × List ScannedEpcUI :=
  if epcs.length = 0 then ([], scannedEPCs)
  else
    (processEpcs registry item.assetId (uniqueEpcs item epcs) scannedEPCs,
      scannedEPCs ++ processEpcs registry item.assetId (uniqueEpcs item epcs) scannedEPCs)

/-- `handleDeleteInvalidScan` (`InventoryScanScreen.tsx` lines 175-178):
`prev.filter(s => s.epc !== epcToDelete)`. -/
def handleDeleteInvalidScan (epcToDelete : String) (prev : List ScannedEpcUI) :
    List ScannedEpcUI :=
  prev.filter (fun s => decide (s.epc ≠ epcToDelete))

/-- `validScans` (`InventoryScanScreen.tsx` line 107). -/
def validScans (scannedEPCs : List ScannedEpcUI) : List ScannedEpcUI :=
  scannedEPCs.filter (fun s => decide (s.uiStatus = UIStatus.valid))

/-- `surplusScans` (`InventoryScanScreen.tsx` line 108). -/
def surplusScans (scannedEPCs : List ScannedEpcUI) : List ScannedEpcUI :=
  scannedEPCs.filter (fun s =>
    decide (s.uiStatus = UIStatus.invalid_surplus) ||
      decide (s.uiStatus = UIStatus.invalid_wrong_asset))

/-- `errorScans` (`InventoryScanScreen.tsx` line 109). -/
def errorScans (scannedEPCs : List ScannedEpcUI) : List ScannedEpcUI :=
  scannedEPCs.filter (fun s => decide (s.uiStatus = UIStatus.invalid_not_found))

/-- The count confirmed upstream: `validScans.length`
(`InventoryScanScreen.tsx` lines 230-233, `onConfirmScan` argument). -/
def confirmedCount (scannedEPCs : List ScannedEpcUI) : Nat :=
  (validScans scannedEPCs).length

/-- The record built from an already unwrapped lookup result, the same
`{ epc, ...result, uiStatus }` shape as `mkScan`. -/
def mkScanE (result : LookupResult) (assetId epc : String) : ScannedEpcUI :=
  { epc := epc
    status := result.status
    assetInfo := result.assetInfo
    uiStatus := classify result assetId }

/-- The scan loop with a fallible registry, as the `await` in
`handleScanResults` behaves when the promise may reject: there is no
try/catch in the source, so a rejection propagates immediately and no
further EPC is processed. -/
def processEpcsE (registry : String → Except Unit LookupResult) (assetId : String) :
    List String → List ScannedEpcUI → Except Unit (List ScannedEpcUI)
  | [], _ => Except.ok []
  | epc :: rest, session =>
    if epc ∈ session.map ScannedEpcUI.epc then
      processEpcsE registry assetId rest session
    else
      match registry epc with
      | Except.error e => Except.error e
      | Except.ok result =>
        Except.map (fun tail => mkScanE result assetId epc :: tail)
          (processEpcsE registry assetId rest (session ++ [mkScanE result assetId epc]))

/-- `handleScanResults` with a fallible registry: a rejection anywhere in
the loop escapes before `setScannedEPCs` runs, so no state update happens. -/
def handleScanResultsE (registry : String → Except Unit LookupResult) (item : InventoryItem)
    (epcs : List String) (scannedEPCs : List ScannedEpcUI) :
    Except Unit (List ScannedEpcUI × List ScannedEpcUI) :=
  if epcs.length = 0 then Except.ok ([], scannedEPCs)
  else
    Except.map (fun newScans => (newScans, scannedEPCs ++ newScans))
      (processEpcsE registry item.assetId (uniqueEpcs item epcs) scannedEPCs)

/-- Sessions reachable from the empty session through the two mutating
operations of the screen: a scan batch (`handleScanResults`) and a record
deletion (`handleDeleteInvalidScan`). -/
inductive Reachable : List ScannedEpcUI → Prop
  | empty : Reachable []
  | append (registry : String → LookupResult) (item : InventoryItem) (epcs : List String)
      (s : List ScannedEpcUI) : Reachable s →
      Reachable (handleScanResults registry item epcs s).2
  | remove (epc : String) (s : List ScannedEpcUI) : Reachable s →
      Reachable (handleDeleteInvalidScan epc s)

/-- A registry table used for concrete witnesses: the current asset. -/
def aiW : AssetInfo := { assetId := "ASSET-1", assetType := "Device", assetName := "Laptop A" }

/-- A registry table used for concrete witnesses: a different asset. -/
def aiOther : AssetInfo := { assetId := "ASSET-2", assetType := "Device", assetName := "Printer B" }

/-- A concrete registry for witnesses: expected EPCs A and B belong to the
current asset, EPC-E5-001 is reported surplus, EPC-A1-001 belongs to a
different asset, everything else is unknown. -/
def regW : String → LookupResult := fun e =>
  if e = "A" ∨ e = "B" then { status := LookupStatus.valid, assetInfo := some aiW }
  else if e = "EPC-E5-001" then { status := LookupStatus.surplus, assetInfo := some aiOther }
  else if e = "EPC-A1-001" then { status := LookupStatus.valid, assetInfo := some aiOther }
  else { status := LookupStatus.error_not_found, assetInfo := none }

/-- A concrete inventory item for witnesses, expecting EPCs A and B. -/
def itemW : InventoryItem :=
  { assetId := "ASSET-1", assetType := "Device", assetName := "Laptop A",
    quantityRequired := 2, quantityScanned := 0, expectedEpcs := ["A", "B"] }

/-- The session obtained from the empty session by scanning the batch
consisting of the single EPC A against `regW` and `itemW`. -/
def sessionW : List ScannedEpcUI := (handleScanResults regW itemW ["A"] []).2

/-- A concrete valid record used in counterexamples. -/
def validRecordW : ScannedEpcUI :=
  { epc := "V", status := LookupStatus.valid, assetInfo := some aiW,
    uiStatus := UIStatus.valid }

/-- A registry that always fails, for the lookup-failure analysis. -/
def regFail : String → Except Unit LookupResult := fun _ => Except.error ()

/-- A registry that fails on EPC Y only. -/
def regFailY : String → Except Unit LookupResult := fun e =>
  if e = "Y" then Except.error ()
  else Except.ok { status := LookupStatus.valid, assetInfo := some aiW }

/-- Splitting a middle cons of an append, used to re-associate the session
as the scan loop extends it. -/
theorem append_cons_eq {α : Type} (s : List α) (a : α) (t : List α) :
    s ++ a :: t = (s ++ [a]) ++ t := by simp

/-- Every record produced by the scan loop carries an EPC that was not in
the session the loop started from. -/
theorem processEpcs_epc_fresh (registry : String → LookupResult) (assetId : String)
    (l : List String) :
    ∀ (session : List ScannedEpcUI) (r : ScannedEpcUI),
      r ∈ processEpcs registry assetId l session →
      r.epc ∉ session.map ScannedEpcUI.epc := by
  induction l with
  | nil => intro session r h; simp [processEpcs] at h
  | cons epc rest ih =>
    intro session r h
    by_cases hm : epc ∈ session.map ScannedEpcUI.epc
    · rw [processEpcs, if_pos hm] at h
      exact ih session r h
    · rw [processEpcs, if_neg hm] at h
      rcases List.mem_cons.mp h with h1 | h2
      · subst h1; simpa [mkScan] using hm
      · have h3 := ih (session ++ [mkScan registry assetId epc]) r h2
        simp only [List.map_append, List.mem_append] at h3
        intro hc; exact h3 (Or.inl hc)

/-- After a scan loop, every EPC of the processed list is present in the
resulting session. -/
theorem mem_epcs_processEpcs (registry : String → LookupResult) (assetId : String)
    (l : List String) :
    ∀ (session : List ScannedEpcUI) (e : String), e ∈ l →
      e ∈ (session ++ processEpcs registry assetId l session).map ScannedEpcUI.epc := by
  induction l with
  | nil => intro _ e h; exact absurd h (List.not_mem_nil e)
  | cons epc rest ih =>
    intro session e he
    by_cases hm : epc ∈ session.map ScannedEpcUI.epc
    · rw [processEpcs, if_pos hm]
      rcases List.mem_cons.mp he with h1 | h2
      · subst h1
        simp only [List.map_append, List.mem_append]
        exact Or.inl hm
      · exact ih session e h2
    · rw [processEpcs, if_neg hm]
      rcases List.mem_cons.mp he with h1 | h2
      · subst h1; simp [mkScan]
      · have h3 := ih (session ++ [mkScan registry assetId epc]) e h2
        rw [append_cons_eq]
        exact h3

/-- If every EPC of the batch is already in the session, the scan loop adds
nothing. -/
theorem processEpcs_eq_nil (registry : String → LookupResult) (assetId : String)
    (l : List String) :
    ∀ (session : List ScannedEpcUI),
      (∀ e ∈ l, e ∈ session.map ScannedEpcUI.epc) →
      processEpcs registry assetId l session = [] := by
  induction l with
  | nil => intro session _; simp [processEpcs]
  | cons epc rest ih =>
    intro session h
    have hm : epc ∈ session.map ScannedEpcUI.epc := h epc (List.mem_cons_self epc rest)
    rw [processEpcs, if_pos hm]
    exact ih session (fun e he => h e (List.mem_cons_of_mem epc he))

/-- The scan loop preserves distinctness of the EPCs stored in the session. -/
theorem nodup_processEpcs (registry : String → LookupResult) (assetId : String)
    (l : List String) :
    ∀ (session : List ScannedEpcUI), (session.map ScannedEpcUI.epc).Nodup →
      ((session ++ processEpcs registry assetId l session).map ScannedEpcUI.epc).Nodup := by
  induction l with
  | nil => intro session h; simpa [processEpcs] using h
  | cons epc rest ih =>
    intro session h
    by_cases hm : epc ∈ session.map ScannedEpcUI.epc
    · rw [processEpcs, if_pos hm]
      exact ih session h
    · rw [processEpcs, if_neg hm, append_cons_eq]
      apply ih
      rw [List.map_append, List.nodup_append]
      refine ⟨h, by simp [mkScan], ?_⟩
      intro a ha hb
      simp only [mkScan, List.map_cons, List.map_nil, List.mem_singleton] at hb
      subst hb
      exact hm ha

/-- The classification chain never yields the duplicate status: duplicates
are filtered out before classification ever runs. -/
theorem classify_ne_duplicate (result : LookupResult) (assetId : String) :
    classify result assetId ≠ UIStatus.invalid_duplicate := by
  unfold classify
  split_ifs <;> simp

/-- Every record produced by the scan loop is classified, so its status is
never the duplicate status. -/
theorem processEpcs_status (registry : String → LookupResult) (assetId : String)
    (l : List String) :
    ∀ (session : List ScannedEpcUI) (r : ScannedEpcUI),
      r ∈ processEpcs registry assetId l session →
      r.uiStatus ≠ UIStatus.invalid_duplicate := by
  induction l with
  | nil => intro session r h; simp [processEpcs] at h
  | cons epc rest ih =>
    intro session r h
    by_cases hm : epc ∈ session.map ScannedEpcUI.epc
    · rw [processEpcs, if_pos hm] at h
      exact ih session r h
    · rw [processEpcs, if_neg hm] at h
      rcases List.mem_cons.mp h with h1 | h2
      · subst h1; simpa [mkScan] using classify_ne_duplicate (registry epc) assetId
      · exact ih (session ++ [mkScan registry assetId epc]) r h2

/-- No record of a reachable session carries the duplicate status. -/
theorem reachable_status_aux (s : List ScannedEpcUI) (h : Reachable s) :
    ∀ r ∈ s, r.uiStatus ≠ UIStatus.invalid_duplicate := by
  induction h with
  | empty => intro r hr; exact absurd hr (List.not_mem_nil r)
  | append registry item epcs t ht ih =>
    intro r hr
    by_cases hb : epcs.length = 0
    · rw [handleScanResults, if_pos hb] at hr
      exact ih r hr
    · rw [handleScanResults, if_neg hb] at hr
      rcases List.mem_append.mp hr with h1 | h2
      · exact ih r h1
      · exact processEpcs_status registry item.assetId (uniqueEpcs item epcs) t r h2
  | remove epc t ht ih =>
    intro r hr
    rw [handleDeleteInvalidScan] at hr
    exact ih r (List.mem_of_mem_filter hr)

/-- Records of a session with no duplicate-status record split exactly into
the three buckets. -/
theorem partition_sum_aux : ∀ (s : List ScannedEpcUI),
    (∀ r ∈ s, r.uiStatus ≠ UIStatus.invalid_duplicate) →
    (validScans s).length + (surplusScans s).length + (errorScans s).length = s.length := by
  intro s
  induction s with
  | nil => intro _; simp [validScans, surplusScans, errorScans]
  | cons r t ih =>
    intro h
    have hr := h r (List.mem_cons_self r t)
    have ht := ih (fun x hx => h x (List.mem_cons_of_mem r hx))
    simp only [validScans, surplusScans, errorScans, List.filter_cons, List.length_cons] at ht ⊢
    cases hu : r.uiStatus
    · simp only [hu]
      simp
      omega
    · exact absurd hu hr
    · simp only [hu]
      simp
      omega
    · simp only [hu]
      simp
      omega
    · simp only [hu]
      simp
      omega

/-- An element of a list that is not among the already seen ones survives
the first-occurrence deduplication. -/
theorem mem_jsSetDedupAux : ∀ (l seen : List String) (e : String), e ∈ l → e ∉ seen →
    e ∈ jsSetDedupAux seen l := by
  intro l
  induction l with
  | nil => intro seen e he _; exact absurd he (List.not_mem_nil e)
  | cons x rest ih =>
    intro seen e he hns
    by_cases hm : x ∈ seen
    · rw [jsSetDedupAux, if_pos hm]
      rcases List.mem_cons.mp he with h1 | h2
      · subst h1; exact absurd hm hns
      · exact ih seen e h2 hns
    · rw [jsSetDedupAux, if_neg hm]
      rcases List.mem_cons.mp he with h1 | h2
      · subst h1; exact List.mem_cons_self _ _
      · by_cases hex : e = x
        · subst hex; exact List.mem_cons_self _ _
        · refine List.mem_cons_of_mem _ (ih (seen ++ [x]) e h2 ?_)
          simp only [List.mem_append, List.mem_singleton]
          rintro (hc | hc)
          · exact hns hc
          · exact hex hc

/-- Every EPC of the scanned batch survives into the deduplicated unique
list that the handler iterates over. -/
theorem mem_uniqueEpcs (item : InventoryItem) (b : List String) (e : String)
    (h : e ∈ b) : e ∈ uniqueEpcs item b := by
  unfold uniqueEpcs jsSetDedup
  exact mem_jsSetDedupAux _ [] e (by simp [h]) (List.not_mem_nil e)

/-- Unfolding of the fallible loop at a fresh EPC whose lookup fails. -/
theorem processEpcsE_cons_err (registry : String → Except Unit LookupResult)
    (assetId x : String) (rest : List String) (session : List ScannedEpcUI)
    (hm : x ∉ session.map ScannedEpcUI.epc) (hx : registry x = Except.error ()) :
    processEpcsE registry assetId (x :: rest) session = Except.error () := by
  rw [processEpcsE, if_neg hm, hx]

/-- Unfolding of the fallible loop at a fresh EPC whose lookup succeeds. -/
theorem processEpcsE_cons_ok (registry : String → Except Unit LookupResult)
    (assetId x : String) (rest : List String) (session : List ScannedEpcUI)
    (res : LookupResult)
    (hm : x ∉ session.map ScannedEpcUI.epc) (hx : registry x = Except.ok res) :
    processEpcsE registry assetId (x :: rest) session =
      Except.map (fun tail => mkScanE res assetId x :: tail)
        (processEpcsE registry assetId rest (session ++ [mkScanE res assetId x])) := by
  rw [processEpcsE, if_neg hm, hx]

/-- If the lookup of some EPC of the batch that is not yet in the session
fails, the whole loop fails. -/
theorem processEpcsE_error (registry : String → Except Unit LookupResult) (assetId : String) :
    ∀ (l : List String) (session : List ScannedEpcUI) (e : String),
      e ∈ l → e ∉ session.map ScannedEpcUI.epc → registry e = Except.error () →
      processEpcsE registry assetId l session = Except.error () := by
  intro l
  induction l with
  | nil => intro session e he _ _; exact absurd he (List.not_mem_nil e)
  | cons x rest ih =>
    intro session e he hfresh herr
    by_cases hm : x ∈ session.map ScannedEpcUI.epc
    · rw [processEpcsE, if_pos hm]
      rcases List.mem_cons.mp he with h1 | h2
      · subst h1; exact absurd hm hfresh
      · exact ih session e h2 hfresh herr
    · rcases hx : registry x with e2 | res
      · exact processEpcsE_cons_err registry assetId x rest session hm hx
      · rcases List.mem_cons.mp he with h1 | h2
        · subst h1; rw [hx] at herr; exact absurd herr (by simp)
        · by_cases hex : e = x
          · subst hex; rw [hx] at herr; exact absurd herr (by simp)
          · rw [processEpcsE_cons_ok registry assetId x rest session res hm hx]
            have hf2 : e ∉ (session ++ [mkScanE res assetId x]).map ScannedEpcUI.epc := by
              simp only [List.map_append, List.mem_append, List.map_cons, List.map_nil,
                List.mem_singleton, mkScanE]
              rintro (hc | hc)
              · exact hfresh hc
              · exact hex hc
            rw [ih (session ++ [mkScanE res assetId x]) e h2 hf2 herr]
            rfl

/-- Claim C1: for a scanned EPC not already present in the session, the
scan handler appends exactly one record for it, and its status follows the
decision chain in order with first match winning: a not-found lookup gives
invalid_not_found; otherwise a surplus lookup gives invalid_surplus;
otherwise a reported assetId differing from the current asset's id gives
invalid_wrong_asset; otherwise the record is valid. -/
theorem classification_order (registry : String → LookupResult) (assetId epc : String)
    (session : List ScannedEpcUI) (h : epc ∉ session.map ScannedEpcUI.epc) :
    processEpcs registry assetId [epc] session = [mkScan registry assetId epc] ∧
    ((registry epc).status = LookupStatus.error_not_found →
      (mkScan registry assetId epc).uiStatus = UIStatus.invalid_not_found) ∧
    ((registry epc).status ≠ LookupStatus.error_not_found →
      (registry epc).status = LookupStatus.surplus →
      (mkScan registry assetId epc).uiStatus = UIStatus.invalid_surplus) ∧
    ((registry epc).status ≠ LookupStatus.error_not_found →
      (registry epc).status ≠ LookupStatus.surplus →
      (registry epc).assetInfo.map AssetInfo.assetId ≠ some assetId →
      (mkScan registry assetId epc).uiStatus = UIStatus.invalid_wrong_asset) ∧
    ((registry epc).status ≠ LookupStatus.error_not_found →
      (registry epc).status ≠ LookupStatus.surplus →
      (registry epc).assetInfo.map AssetInfo.assetId = some assetId →
      (mkScan registry assetId epc).uiStatus = UIStatus.valid) := by
  refine ⟨by rw [processEpcs, if_neg h, processEpcs], ?_, ?_, ?_, ?_⟩
  · intro h1; simp [mkScan, classify, h1]
  · intro h1 h2; simp [mkScan, classify, h1, h2]
  · intro h1 h2 h3; simp [mkScan, classify, h1, h2, h3]
  · intro h1 h2 h3; simp [mkScan, classify, h1, h2, h3]

/-- Witness for claim C1 at a concrete input: EPC Z is unknown to the
registry `regW`, so its record is classified invalid_not_found. -/
theorem classification_order_witness :
    processEpcs regW "ASSET-1" ["Z"] [] = [mkScan regW "ASSET-1" "Z"] ∧
    (mkScan regW "ASSET-1" "Z").uiStatus = UIStatus.invalid_not_found :=
  ⟨(classification_order regW "ASSET-1" "Z" [] (by simp)).1,
   (classification_order regW "ASSET-1" "Z" [] (by simp)).2.1 rfl⟩

/-- Claim C10: a lookup result whose status is found (neither not-found nor
surplus) but which lacks an assetInfo value is classified
invalid_wrong_asset; a record is classified valid exactly when the lookup
carries an assetInfo whose assetId equals the current asset's id (and the
status is neither not-found nor surplus). -/
theorem missing_assetinfo_wrong_asset (result : LookupResult) (assetId : String) :
    (result.status ≠ LookupStatus.error_not_found → result.status ≠ LookupStatus.surplus →
      result.assetInfo = none → classify result assetId = UIStatus.invalid_wrong_asset) ∧
    (classify result assetId = UIStatus.valid ↔
      (result.status ≠ LookupStatus.error_not_found ∧ result.status ≠ LookupStatus.surplus ∧
        ∃ ai, result.assetInfo = some ai ∧ ai.assetId = assetId)) := by
  rcases result with ⟨st, info⟩
  constructor
  · intro h1 h2 h3
    subst h3
    simp only [classify] at *
    rw [if_neg h1, if_neg h2, if_pos (by simp)]
  · cases st
    · rcases info with _ | ai
      · simp [classify]
      · by_cases hai : ai.assetId = assetId <;> simp [classify, hai]
    · simp [classify]
    · simp [classify]

/-- Witness for claim C10 at a concrete input: a found lookup with no
assetInfo is classified invalid_wrong_asset. -/
theorem missing_assetinfo_wrong_asset_witness :
    classify { status := LookupStatus.valid, assetInfo := none } "ASSET-1" =
      UIStatus.invalid_wrong_asset :=
  (missing_assetinfo_wrong_asset { status := LookupStatus.valid, assetInfo := none }
    "ASSET-1").1 (by simp) (by simp) rfl

/-- Counterexample to claim C6: the delete handler applied to the EPC of a
valid record does not leave the session unchanged — it removes the valid
record. -/
theorem remove_valid_counterexample :
    handleDeleteInvalidScan "V" [validRecordW] ≠ [validRecordW] := by decide

/-- Claim C6 as amended: the delete handler removes every record whose EPC
equals the argument, regardless of its status (valid records included): a
record is in the result exactly when it was present and its EPC differs.
The restriction of deletion to invalid records lives only in the
presentation layer, not in this operation. -/
theorem remove_filters_by_epc (e : String) (s : List ScannedEpcUI) (r : ScannedEpcUI) :
    r ∈ handleDeleteInvalidScan e s ↔ (r ∈ s ∧ r.epc ≠ e) := by
  simp [handleDeleteInvalidScan, List.mem_filter]

/-- Witness for the amended claim C6 at a concrete input: a valid record
whose EPC differs from the deleted one survives. -/
theorem remove_filters_by_epc_witness :
    validRecordW ∈ handleDeleteInvalidScan "X" [validRecordW] ↔
      (validRecordW ∈ [validRecordW] ∧ validRecordW.epc ≠ "X") :=
  remove_filters_by_epc "X" [validRecordW] validRecordW

/-- Counterexample to claim C2: EPC A is already recorded in `sessionW`,
yet re-scanning it yields no added record at all — in particular no record
with status invalid_duplicate is produced. -/
theorem rescan_counterexample :
    "A" ∈ sessionW.map ScannedEpcUI.epc ∧
    (handleScanResults regW itemW ["A"] sessionW).1 = [] := by
  constructor
  · decide
  · decide

/-- Claim C2 as amended: re-scanning an EPC already recorded in the session
produces no record at all — the EPC is skipped before lookup and
classification, so no record for it (with status invalid_duplicate or any
other) is added, and the session's records with that EPC are unchanged. -/
theorem rescan_skipped (registry : String → LookupResult) (item : InventoryItem)
    (b : List String) (s : List ScannedEpcUI) (e : String)
    (h : e ∈ s.map ScannedEpcUI.epc) :
    (∀ r ∈ (handleScanResults registry item b s).1, r.epc ≠ e) ∧
    ((handleScanResults registry item b s).2.filter (fun r => decide (r.epc = e)) =
      s.filter (fun r => decide (r.epc = e))) := by
  by_cases hb : b.length = 0
  · rw [handleScanResults, if_pos hb]
    exact ⟨fun r hr => absurd hr (List.not_mem_nil r), rfl⟩
  · rw [handleScanResults, if_neg hb]
    have hfresh : ∀ r ∈ processEpcs registry item.assetId (uniqueEpcs item b) s,
        r.epc ≠ e := by
      intro r hr hc
      have := processEpcs_epc_fresh registry item.assetId (uniqueEpcs item b) s r hr
      rw [hc] at this
      exact this h
    refine ⟨hfresh, ?_⟩
    rw [List.filter_append]
    have hnil : (processEpcs registry item.assetId (uniqueEpcs item b) s).filter
        (fun r => decide (r.epc = e)) = [] := by
      rw [List.filter_eq_nil_iff]
      intro r hr
      simpa using hfresh r hr
    rw [hnil, List.append_nil]

/-- Witness for the amended claim C2 at a concrete input: with record A
already in the session, re-scanning A adds only other EPCs (the first added
record is for B, not A) and the stored records with EPC A are unchanged. -/
theorem rescan_skipped_witness :
    (mkScan regW "ASSET-1" "B").epc ≠ "A" ∧
    ((handleScanResults regW itemW ["A"] [mkScan regW "ASSET-1" "A"]).2.filter
        (fun r => decide (r.epc = "A")) =
      ([mkScan regW "ASSET-1" "A"]).filter (fun r => decide (r.epc = "A"))) :=
  ⟨(rescan_skipped regW itemW ["A"] [mkScan regW "ASSET-1" "A"] "A" (by decide)).1
      (mkScan regW "ASSET-1" "B") (by decide),
   (rescan_skipped regW itemW ["A"] [mkScan regW "ASSET-1" "A"] "A" (by decide)).2⟩

/-- Claim C8: appending the same batch twice in succession (same registry,
same item) adds records only the first time; the second append returns the
empty list of added records and leaves the session unchanged, because every
EPC of the batch is then already present. -/
theorem append_twice (registry : String → LookupResult) (item : InventoryItem)
    (b : List String) (s : List ScannedEpcUI) :
    (handleScanResults registry item b (handleScanResults registry item b s).2).1 = [] ∧
    (handleScanResults registry item b (handleScanResults registry item b s).2).2 =
      (handleScanResults registry item b s).2 := by
  by_cases hb : b.length = 0
  · rw [handleScanResults, if_pos hb, handleScanResults, if_pos hb]
    exact ⟨rfl, rfl⟩
  · have hnil : processEpcs registry item.assetId (uniqueEpcs item b)
        (handleScanResults registry item b s).2 = [] := by
      apply processEpcs_eq_nil
      intro e he
      have h1 := mem_epcs_processEpcs registry item.assetId (uniqueEpcs item b) s e he
      rw [handleScanResults, if_neg hb]
      exact h1
    constructor
    · rw [handleScanResults, if_neg hb]
      exact hnil
    · rw [handleScanResults, if_neg hb]
      rw [hnil, List.append_nil]

/-- Witness for claim C8 at a concrete input: scanning batch [A] twice from
the empty session adds nothing the second time. -/
theorem append_twice_witness :
    (handleScanResults regW itemW ["A"] (handleScanResults regW itemW ["A"] []).2).1 = [] ∧
    (handleScanResults regW itemW ["A"] (handleScanResults regW itemW ["A"] []).2).2 =
      (handleScanResults regW itemW ["A"] []).2 :=
  append_twice regW itemW ["A"] []

/-- Claim C4: in every session reachable by scan batches and deletions from
the empty session, no two records share the same EPC string. -/
theorem session_epcs_nodup (s : List ScannedEpcUI) (h : Reachable s) :
    (s.map ScannedEpcUI.epc).Nodup := by
  induction h with
  | empty => simp
  | append registry item epcs t ht ih =>
    by_cases hb : epcs.length = 0
    · rw [handleScanResults, if_pos hb]
      exact ih
    · rw [handleScanResults, if_neg hb]
      exact nodup_processEpcs registry item.assetId (uniqueEpcs item epcs) t ih
  | remove epc t ht ih =>
    rw [handleDeleteInvalidScan]
    exact List.Nodup.sublist (List.Sublist.map ScannedEpcUI.epc (List.filter_sublist t)) ih

/-- Witness for claim C4 at a concrete input: the session reached by
scanning batch [A] from the empty session has pairwise distinct EPCs. -/
theorem session_epcs_nodup_witness :
    (((handleScanResults regW itemW ["A"] []).2).map ScannedEpcUI.epc).Nodup :=
  session_epcs_nodup (handleScanResults regW itemW ["A"] []).2
    (Reachable.append regW itemW ["A"] [] Reachable.empty)

/-- Claim C9: in every reachable session, no stored record carries the
status invalid_duplicate — every stored record's status is one of valid,
invalid_surplus, invalid_wrong_asset, or invalid_not_found. -/
theorem stored_status_never_duplicate (s : List ScannedEpcUI) (h : Reachable s) :
    ∀ r ∈ s, r.uiStatus = UIStatus.valid ∨ r.uiStatus = UIStatus.invalid_surplus ∨
      r.uiStatus = UIStatus.invalid_wrong_asset ∨
      r.uiStatus = UIStatus.invalid_not_found := by
  intro r hr
  have h2 := reachable_status_aux s h r hr
  cases hu : r.uiStatus
  · exact Or.inl rfl
  · exact absurd hu h2
  · exact Or.inr (Or.inr (Or.inl rfl))
  · exact Or.inr (Or.inl rfl)
  · exact Or.inr (Or.inr (Or.inr rfl))

/-- Witness for claim C9 at a concrete input: the record for EPC A stored
by scanning batch [A] has one of the four storable statuses. -/
theorem stored_status_never_duplicate_witness :
    (mkScan regW "ASSET-1" "A").uiStatus = UIStatus.valid ∨
    (mkScan regW "ASSET-1" "A").uiStatus = UIStatus.invalid_surplus ∨
    (mkScan regW "ASSET-1" "A").uiStatus = UIStatus.invalid_wrong_asset ∨
    (mkScan regW "ASSET-1" "A").uiStatus = UIStatus.invalid_not_found :=
  stored_status_never_duplicate (handleScanResults regW itemW ["A"] []).2
    (Reachable.append regW itemW ["A"] [] Reachable.empty)
    (mkScan regW "ASSET-1" "A") (by decide)

/-- Claim C5: in every reachable session the three buckets (valid records;
surplus records, i.e. invalid_surplus or invalid_wrong_asset; error
records, i.e. invalid_not_found) are pairwise disjoint and their sizes sum
to the total number of records. -/
theorem partition_complete_disjoint (s : List ScannedEpcUI) (h : Reachable s) :
    ((validScans s).length + (surplusScans s).length + (errorScans s).length = s.length) ∧
    (∀ r, ¬(r ∈ validScans s ∧ r ∈ surplusScans s)) ∧
    (∀ r, ¬(r ∈ validScans s ∧ r ∈ errorScans s)) ∧
    (∀ r, ¬(r ∈ surplusScans s ∧ r ∈ errorScans s)) := by
  refine ⟨partition_sum_aux s (reachable_status_aux s h), ?_, ?_, ?_⟩
  · rintro r ⟨h1, h2⟩
    rw [validScans, List.mem_filter] at h1
    rw [surplusScans, List.mem_filter] at h2
    rcases h1 with ⟨-, h1⟩
    rcases h2 with ⟨-, h2⟩
    simp only [decide_eq_true_eq, Bool.or_eq_true] at h1 h2
    rw [h1] at h2
    rcases h2 with h2 | h2 <;> exact absurd h2 (by simp)
  · rintro r ⟨h1, h2⟩
    rw [validScans, List.mem_filter] at h1
    rw [errorScans, List.mem_filter] at h2
    rcases h1 with ⟨-, h1⟩
    rcases h2 with ⟨-, h2⟩
    simp only [decide_eq_true_eq] at h1 h2
    rw [h1] at h2
    exact absurd h2 (by simp)
  · rintro r ⟨h1, h2⟩
    rw [surplusScans, List.mem_filter] at h1
    rw [errorScans, List.mem_filter] at h2
    rcases h1 with ⟨-, h1⟩
    rcases h2 with ⟨-, h2⟩
    simp only [decide_eq_true_eq, Bool.or_eq_true] at h1 h2
    rw [h2] at h1
    rcases h1 with h1 | h1 <;> exact absurd h1 (by simp)

/-- Witness for claim C5 at a concrete input: in the session reached by
scanning batch [A], the bucket sizes sum to the record count and the record
for EPC A is not in two buckets at once. -/
theorem partition_complete_disjoint_witness :
    ((validScans sessionW).length + (surplusScans sessionW).length +
      (errorScans sessionW).length = sessionW.length) ∧
    ¬(mkScan regW "ASSET-1" "A" ∈ validScans sessionW ∧
      mkScan regW "ASSET-1" "A" ∈ surplusScans sessionW) :=
  ⟨(partition_complete_disjoint sessionW
      (Reachable.append regW itemW ["A"] [] Reachable.empty)).1,
   (partition_complete_disjoint sessionW
      (Reachable.append regW itemW ["A"] [] Reachable.empty)).2.1 (mkScan regW "ASSET-1" "A")⟩

/-- Counterexample to claim C3: with expected set [A, B] and a registry that
attributes A to the current asset, scanning the batch [A] from the empty
session does not produce exactly one record (the handler injects the
expected EPCs and three mock EPCs into every batch, yielding five records)
and the confirmed count is not 1. -/
theorem scan_single_counterexample :
    (handleScanResults regW itemW ["A"] []).1.length ≠ 1 ∧
    confirmedCount (handleScanResults regW itemW ["A"] []).2 ≠ 1 := by
  constructor
  · decide
  · decide

/-- Claim C3 as amended: with expected set [A, B], scanning the batch [A]
from the empty session adds five records — A, B and the three injected mock
EPCs — not one.  Whenever the registry attributes A to the current asset,
the first added record is A's and is valid, A is in the valid bucket, and
the confirmed count is at least 1 (its exact value additionally counts
whichever injected EPCs are classified valid). -/
theorem scan_single_with_injection (registry : String → LookupResult) (ai : AssetInfo)
    (h1 : (registry "A").status ≠ LookupStatus.error_not_found)
    (h2 : (registry "A").status ≠ LookupStatus.surplus)
    (h3 : (registry "A").assetInfo = some ai)
    (h4 : ai.assetId = "ASSET-1") :
    ((handleScanResults registry itemW ["A"] []).1.map ScannedEpcUI.epc =
      ["A", "B", "EPC-E5-001", "EPC-A1-001", "UNKNOWN-EPC-123"]) ∧
    ((handleScanResults registry itemW ["A"] []).1.head?.map ScannedEpcUI.uiStatus =
      some UIStatus.valid) ∧
    "A" ∈ (validScans (handleScanResults registry itemW ["A"] []).2).map ScannedEpcUI.epc ∧
    1 ≤ confirmedCount (handleScanResults registry itemW ["A"] []).2 := by
  have hv : (mkScan registry "ASSET-1" "A").uiStatus = UIStatus.valid := by
    simp [mkScan, classify, h1, h2, h3, h4]
  have hp : (handleScanResults registry itemW ["A"] []).1 =
      [mkScan registry "ASSET-1" "A", mkScan registry "ASSET-1" "B",
       mkScan registry "ASSET-1" "EPC-E5-001", mkScan registry "ASSET-1" "EPC-A1-001",
       mkScan registry "ASSET-1" "UNKNOWN-EPC-123"] := rfl
  have hp2 : (handleScanResults registry itemW ["A"] []).2 =
      [mkScan registry "ASSET-1" "A", mkScan registry "ASSET-1" "B",
       mkScan registry "ASSET-1" "EPC-E5-001", mkScan registry "ASSET-1" "EPC-A1-001",
       mkScan registry "ASSET-1" "UNKNOWN-EPC-123"] := rfl
  have hmem : mkScan registry "ASSET-1" "A" ∈
      validScans (handleScanResults registry itemW ["A"] []).2 := by
    rw [hp2, validScans]
    exact List.mem_filter.mpr ⟨List.mem_cons_self _ _, by simp [hv]⟩
  refine ⟨?_, ?_, ?_, ?_⟩
  · rw [hp]; simp [mkScan]
  · rw [hp]; simp [hv]
  · exact List.mem_map.mpr ⟨mkScan registry "ASSET-1" "A", hmem, rfl⟩
  · have := List.length_pos_of_mem hmem
    rw [confirmedCount]
    omega

/-- Witness for the amended claim C3 at a concrete input: against the
concrete registry `regW` the five records appear, A's record is first and
valid, and the confirmed count is at least 1. -/
theorem scan_single_with_injection_witness :
    ((handleScanResults regW itemW ["A"] []).1.map ScannedEpcUI.epc =
      ["A", "B", "EPC-E5-001", "EPC-A1-001", "UNKNOWN-EPC-123"]) ∧
    ((handleScanResults regW itemW ["A"] []).1.head?.map ScannedEpcUI.uiStatus =
      some UIStatus.valid) ∧
    "A" ∈ (validScans (handleScanResults regW itemW ["A"] []).2).map ScannedEpcUI.epc ∧
    1 ≤ confirmedCount (handleScanResults regW itemW ["A"] []).2 :=
  scan_single_with_injection regW aiW (by decide) (by decide) rfl rfl

/-- Counterexample to claim C7: with a registry whose lookup fails, scanning
the batch [X] aborts the whole batch with the propagated failure — no
record (in particular no invalid_not_found record for X) is appended and no
updated session is produced. -/
theorem lookup_failure_counterexample :
    handleScanResultsE regFail itemW ["X"] [] = Except.error () := rfl

/-- Claim C7 as amended: if the registry lookup of an EPC of the batch that
is not yet in the session fails, the failure propagates out of the scan
handler and aborts the whole batch — the handler returns the error, so no
records are appended and the session is unchanged; the handler performs a
single lookup per fresh EPC and never retries. -/
theorem lookup_failure_aborts (registry : String → Except Unit LookupResult)
    (item : InventoryItem) (b : List String) (s : List ScannedEpcUI) (e : String)
    (h1 : e ∈ b) (h2 : e ∉ s.map ScannedEpcUI.epc) (h3 : registry e = Except.error ()) :
    handleScanResultsE registry item b s = Except.error () := by
  have hb : ¬(b.length = 0) := by
    intro hc
    rw [List.length_eq_zero] at hc
    subst hc
    exact List.not_mem_nil e h1
  rw [handleScanResultsE, if_neg hb,
    processEpcsE_error registry item.assetId (uniqueEpcs item b) s e
      (mem_uniqueEpcs item b e h1) h2 h3]
  rfl

/-- Witness for the amended claim C7 at a concrete input: a batch [X, Y]
whose lookup fails on Y aborts entirely, even though X's lookup succeeds. -/
theorem lookup_failure_aborts_witness :
    handleScanResultsE regFailY itemW ["X", "Y"] [] = Except.error () :=
  lookup_failure_aborts regFailY itemW ["X", "Y"] [] "Y" (by decide) (by decide) rfl

end RFIDInventory
